import Mathlib

set_option maxRecDepth 8000

namespace AutoClicker

/-!
Shallow embedding of the core of the TMHSDigital/autoclicker repository:
the click scheduling loop (`autoclicker/core/click_engine.py`), the settings
sanitization and validation (`autoclicker/core/settings_manager.py`), and the
preset store (`autoclicker/utils/coordinate_picker.py`).

Machine reals (Python floats) are modelled as exact rationals; Python's
`float('inf')` initial minimum is modelled as `Option.none`; the external
pyautogui injector and `random.randint` are modelled as oracles indexed by a
ghost attempt counter; exceptions are modelled as `Option`-valued escape
results threaded with the post-raise state (Python exceptions keep the side
effects already performed).
-/

/-- Outcome of the platform click primitive (pyautogui) for one executed
attempt: success, the fail-safe interlock (`pyautogui.FailSafeException`),
or a platform-level failure (`pyautogui.PyAutoGUIException`). -/
inductive InjectorOutcome
  | ok
  | failSafe
  | platformError
deriving DecidableEq, Repr

/-- The custom exceptions `_perform_click` can raise (from `exceptions.py`):
`CoordinateError`, `ClickEngineError`, `SafetyError`.  All three derive from
`AutoclickerError`, none from the pyautogui exception classes. -/
inductive ClickErr
  | coordinateError
  | clickEngineError
  | safetyError
deriving DecidableEq, Repr

/-- The `performance_metrics` dictionary of `ClickEngine`: bounded latency
history (deque, maxlen 1000), success and error counters, running sum, min
and max of latency.  `min_click_time = none` models the initial
`float('inf')`. -/
structure Metrics where
  click_timings : List ℚ
  click_success_count : ℕ
  click_error_count : ℕ
  total_click_time : ℚ
  min_click_time : Option ℚ
  max_click_time : ℚ
deriving DecidableEq, Repr

/-- Initial metrics, as built in `ClickEngine.__init__` and
`reset_performance_metrics`. -/
def Metrics.init : Metrics :=
  { click_timings := []
    click_success_count := 0
    click_error_count := 0
    total_click_time := 0
    min_click_time := none
    max_click_time := 0 }

/-- Append to a deque with `maxlen = cap`: the new element goes to the right
and, when the capacity is exceeded, the oldest (leftmost) element is
evicted. -/
def pushBounded (cap : ℕ) (xs : List ℚ) (t : ℚ) : List ℚ :=
  let ys := xs ++ [t]
  ys.drop (ys.length - cap)

/-- Python's `min` against a running minimum that starts at `float('inf')`:
`none` (infinity) is replaced by the sample, otherwise the smaller value is
kept. -/
def minOpt (m : Option ℚ) (t : ℚ) : Option ℚ :=
  match m with
  | none => some t
  | some c => some (min c t)

/-- One click request: target coordinates, mouse button and click type, as
passed through `ClickEngine` (`x, y, mouse_button, click_type`). -/
structure ClickTarget where
  x : ℤ
  y : ℤ
  mouse_button : String
  click_type : String
deriving DecidableEq, Repr

/-- The mutable state of `ClickEngine` relevant to the scheduling loop.
`attempts` is a ghost counter indexing the environment oracles: it counts the
click attempts that actually reached the pyautogui click primitive. -/
structure EngineState where
  is_running : Bool
  click_count : ℕ
  start_time : ℚ
  stop_event : Bool
  enable_performance_monitoring : Bool
  metrics : Metrics
  enable_queuing : Bool
  max_queue_size : ℕ
  click_queue : List ClickTarget
  attempts : ℕ
deriving DecidableEq, Repr

/-- The external world of a run: current screen extent (`pyautogui.size()`),
the injector's behaviour and measured latency for the n-th executed click
attempt, the `random.randint` draws, and the elapsed wall time in minutes
observed at the n-th loop iteration. -/
structure Env where
  screen_width : ℤ
  screen_height : ℤ
  outcome : ℕ → InjectorOutcome
  latency : ℕ → ℚ
  rand : ℕ → ℤ
  elapsed_minutes : ℕ → ℚ

/-- One `click_error_count += 1`, guarded by
`enable_performance_monitoring`, exactly as each `except` handler of
`_perform_click` does. -/
def recordError (s : EngineState) : EngineState :=
  if s.enable_performance_monitoring then
    { s with metrics :=
        { s.metrics with click_error_count := s.metrics.click_error_count + 1 } }
  else s

/-- The success branch of `_perform_click`'s metric accounting: append the
latency to the bounded history, bump the success counter, add to the running
sum, update the running min and max. -/
def recordSuccess (lat : ℚ) (s : EngineState) : EngineState :=
  if s.enable_performance_monitoring then
    { s with metrics :=
        { s.metrics with
            click_timings := pushBounded 1000 s.metrics.click_timings lat
            click_success_count := s.metrics.click_success_count + 1
            total_click_time := s.metrics.total_click_time + lat
            min_click_time := minOpt s.metrics.min_click_time lat
            max_click_time := max s.metrics.max_click_time lat } }
  else s

/-- `ClickEngine._perform_click`.  Returns the state after the call together
with `some e` when the call raised exception `e` (with the side effects
already performed kept, as in Python).  Control flow from the source: a
queued fast path when queuing is on and the queue not full; coordinate
validation against the current screen (raising `CoordinateError`); button
dispatch (raising `ClickEngineError` on an unsupported button); the pyautogui
click, whose fail-safe and platform failures are counted once by the inner
pyautogui handlers and then again by the outer handler for the repository's
own exception types. -/
def perform_click (env : Env) (t : ClickTarget) (s : EngineState) :
    EngineState × Option ClickErr :=
  if s.enable_queuing ∧ s.click_queue.length < s.max_queue_size then
    ({ s with click_queue := s.click_queue ++ [t] }, none)
  else if ¬ (0 ≤ t.x ∧ t.x ≤ env.screen_width ∧ 0 ≤ t.y ∧ t.y ≤ env.screen_height) then
    (recordError s, some ClickErr.coordinateError)
  else if ¬ (t.mouse_button = "left" ∨ t.mouse_button = "right" ∨ t.mouse_button = "middle") then
    (recordError s, some ClickErr.clickEngineError)
  else
    let s1 := { s with attempts := s.attempts + 1 }
    match env.outcome s.attempts with
    | InjectorOutcome.ok => (recordSuccess (env.latency s.attempts) s1, none)
    | InjectorOutcome.failSafe => (recordError (recordError s1), some ClickErr.safetyError)
    | InjectorOutcome.platformError => (recordError (recordError s1), some ClickErr.clickEngineError)

/-- `ClickEngine._perform_burst`, by recursion on the number of clicks still
to perform in the burst.  Before each click the running flag and stop event
are re-read; a successful click is followed by `click_count += 1`; a raised
exception escapes the burst at once, carrying the partial state.  The
intra-burst `time.sleep(burst_pause)` changes no state and is modelled in the
action-trace semantics below. -/
def perform_burst (env : Env) (t : ClickTarget) :
    ℕ → EngineState → EngineState × Option ClickErr
  | 0, s => (s, none)
  | n + 1, s =>
    if ¬ s.is_running ∨ s.stop_event then (s, none)
    else
      match perform_click env t s with
      | (s', none) => perform_burst env t n { s' with click_count := s'.click_count + 1 }
      | (s', some e) => (s', some e)

/-- `ClickEngine._should_stop`: the click limit, then the time limit, each
only when positive. -/
def should_stop (env : Env) (max_clicks auto_stop_minutes : ℕ) (iter : ℕ)
    (s : EngineState) : Bool :=
  if 0 < max_clicks ∧ max_clicks ≤ s.click_count then true
  else if 0 < auto_stop_minutes ∧ (auto_stop_minutes : ℚ) ≤ env.elapsed_minutes iter then true
  else false

/-- How the scheduling loop exited: the while-condition saw the flags
cleared, `_should_stop` reported a limit, or an exception escaped a burst and
was caught by the loop's handler. -/
inductive StopReason
  | flagCleared
  | limit
  | exception
deriving DecidableEq, Repr

/-- Result of a finished scheduling loop: final engine state, the exit path
taken, and whether the completion callback was invoked (the source invokes it
on the normal exit and in the exception handler alike). -/
structure LoopResult where
  state : EngineState
  reason : StopReason
  on_complete_called : Bool
deriving DecidableEq, Repr

/-- `ClickEngine._click_loop`, fuel-indexed: re-read the flags, evaluate
`_should_stop`, perform a burst, loop.  The inter-burst
`_wait_with_variation` changes no engine state and is modelled in the
action-trace semantics below.  `none` means the fuel ran out before the loop
exited. -/
def click_loop (env : Env) (t : ClickTarget) (burst_clicks max_clicks auto_stop_minutes : ℕ) :
    ℕ → ℕ → EngineState → Option LoopResult
  | 0, _, _ => none
  | fuel + 1, iter, s =>
    if ¬ s.is_running ∨ s.stop_event then some ⟨s, StopReason.flagCleared, true⟩
    else if should_stop env max_clicks auto_stop_minutes iter s then
      some ⟨s, StopReason.limit, true⟩
    else
      match perform_burst env t burst_clicks s with
      | (s', none) => click_loop env t burst_clicks max_clicks auto_stop_minutes fuel (iter + 1) s'
      | (s', some _) => some ⟨s', StopReason.exception, true⟩

/-- `ClickEngine.start_clicking`: refuse when already running, otherwise
reset the counter, record the start time, raise the running flag and clear
the stop event (the spawned thread itself is outside the state model). -/
def start_clicking (now : ℚ) (s : EngineState) : Bool × EngineState :=
  if s.is_running then (false, s)
  else
    (true, { s with
        is_running := true
        click_count := 0
        start_time := now
        stop_event := false })

/-- The interval actually sampled by `ClickEngine._wait_with_variation`:
`interval + random.randint(-variation, variation)` when `variation > 0`, the
base interval otherwise.  `r` is the oracle value of the `randint` draw. -/
def actual_interval (interval : ℚ) (variation : ℤ) (r : ℤ) : ℚ :=
  if 0 < variation then interval + (r : ℚ) else interval

/-- The duration `_wait_with_variation` hands to `time.sleep`, in seconds:
`max(actual_interval / 1000, 0.001)`. -/
def wait_time (interval : ℚ) (variation : ℤ) (r : ℤ) : ℚ :=
  max (actual_interval interval variation r / 1000) (1 / 1000)

/-- Atomic actions of the scheduling loop as written in the source:
a point where the running flag and stop event are re-read, a click, or an
uninterruptible `time.sleep` of a given duration in seconds (the source's
sleeps contain no flag check). -/
inductive LoopAction
  | checkFlag
  | click
  | sleep (d : ℚ)
deriving DecidableEq, Repr

-- (clicks are modelled as taking no wall time; only sleeps do)

/-- Action trace of `_perform_burst` for `n` remaining clicks with burst
pause `p` (seconds): the flags are re-read before each click, and
`time.sleep(burst_pause)` runs between consecutive clicks but not after the
last one. -/
def burstActions (p : ℚ) : ℕ → List LoopAction
  | 0 => []
  | 1 => [LoopAction.checkFlag, LoopAction.click]
  | n + 2 =>
    LoopAction.checkFlag :: LoopAction.click :: LoopAction.sleep p ::
      burstActions p (n + 1)

/-- Action trace of one `_click_loop` iteration with burst size `B`, burst
pause `p` and inter-burst sleep `w` seconds: the while-condition flag read,
the burst, the flag read guarding the wait, then the atomic inter-burst
sleep. -/
def iterationActions (B : ℕ) (p w : ℚ) : List LoopAction :=
  LoopAction.checkFlag :: burstActions p B ++ [LoopAction.checkFlag, LoopAction.sleep w]

/-- Wall time from the start of an action sequence until the first point at
which the loop re-reads its flags, or `none` when no such point follows.  A
stop requested at the start of the sequence is observed exactly this much
later. -/
def delayToNextCheck : List LoopAction → Option ℚ
  | [] => none
  | LoopAction.checkFlag :: _ => some 0
  | LoopAction.click :: rest => delayToNextCheck rest
  | LoopAction.sleep d :: rest => (delayToNextCheck rest).map (fun x => d + x)

-- settings_manager.py ----------------------------------------------

/-- A raw setting value as it arrives from the UI or the JSON file: a Python
int, float, string, or `None`.  Container values (the nested presets dict)
are modelled separately by the preset store below. -/
inductive RawValue
  | vint (n : ℤ)
  | vfloat (q : ℚ)
  | vstr (s : String)
  | vnone
deriving DecidableEq, Repr

/-- A flat settings mapping (a Python dict with unique keys), as handed to
`validate_all_settings`. -/
def Settings := List (String × RawValue)

/-- The presets store: the nested `name -> {'x': ..., 'y': ...}` dict held
under the `presets` settings key, modelled as an association list with
unique keys and Python dict update semantics. -/
def PresetStore := List (String × ℤ × ℤ)

/-- Membership test `name in presets`. -/
def hasPreset : List (String × ℤ × ℤ) → String → Bool
  | [], _ => false
  | kv :: rest, k => kv.1 = k || hasPreset rest k

/-- Value replacement for an existing dict key (keeps the key's position,
as a Python dict does). -/
def replacePreset : List (String × ℤ × ℤ) → String → ℤ × ℤ → List (String × ℤ × ℤ)
  | [], _, _ => []
  | kv :: rest, k, v =>
    (if kv.1 = k then (k, v) else kv) :: replacePreset rest k v

/-- `PresetManager.save_preset`: `presets[name] = {'x': x, 'y': y}` —
replace the entry when the name exists, append it otherwise. -/
def save_preset (m : List (String × ℤ × ℤ)) (name : String) (x y : ℤ) :
    List (String × ℤ × ℤ) :=
  if hasPreset m name then replacePreset m name (x, y) else m ++ [(name, (x, y))]

/-- `PresetManager.load_preset`: return the stored pair for the name, or
`none` when the name is not in the store. -/
def load_preset : List (String × ℤ × ℤ) → String → Option (ℤ × ℤ)
  | [], _ => none
  | kv :: rest, k => if kv.1 = k then some kv.2 else load_preset rest k

/-- `PresetManager.get_preset_names`: the stored names. -/
def get_preset_names (m : List (String × ℤ × ℤ)) : List String :=
  m.map (fun kv => kv.1)

-- concrete instances used to evaluate the development ---------------

/-- Preconditions under which `_perform_click` reaches the injector: the
target lies inside the current screen and the button is one the dispatch
supports. -/
def validClick (env : Env) (t : ClickTarget) : Prop :=
  (0 ≤ t.x ∧ t.x ≤ env.screen_width ∧ 0 ≤ t.y ∧ t.y ≤ env.screen_height) ∧
  (t.mouse_button = "left" ∨ t.mouse_button = "right" ∨ t.mouse_button = "middle")

/-- A benign environment: a 1920x1080 screen, every injector call succeeds
in 10 ms, jitter draws 0, no wall time elapses. -/
def okEnv : Env :=
  { screen_width := 1920
    screen_height := 1080
    outcome := fun _ => InjectorOutcome.ok
    latency := fun _ => 1 / 100
    rand := fun _ => 0
    elapsed_minutes := fun _ => 0 }

/-- An environment whose second executed click attempt fails at platform
level; every other attempt succeeds. -/
def failSecondEnv : Env :=
  { okEnv with outcome := fun n => if n = 1 then InjectorOutcome.platformError else InjectorOutcome.ok }

/-- An environment in which every executed click attempt fails at platform
level. -/
def platformFailEnv : Env :=
  { okEnv with outcome := fun _ => InjectorOutcome.platformError }

/-- A plain left single click at (100, 100). -/
def leftClick : ClickTarget :=
  { x := 100, y := 100, mouse_button := "left", click_type := "single" }

/-- Engine state right after a successful `start_clicking`: running, zero
clicks, performance monitoring on, queuing off. -/
def freshEngine : EngineState :=
  { is_running := true
    click_count := 0
    start_time := 0
    stop_event := false
    enable_performance_monitoring := true
    metrics := Metrics.init
    enable_queuing := false
    max_queue_size := 1000
    click_queue := []
    attempts := 0 }

/-- The same state with click queuing enabled. -/
def queueEngine : EngineState :=
  { freshEngine with enable_queuing := true }

-- helper lemmas -----------------------------------------------------

@[simp]
theorem recordError_click_count (s : EngineState) :
    (recordError s).click_count = s.click_count := by
  unfold recordError; split <;> rfl

@[simp]
theorem recordError_is_running (s : EngineState) :
    (recordError s).is_running = s.is_running := by
  unfold recordError; split <;> rfl

@[simp]
theorem recordError_stop_event (s : EngineState) :
    (recordError s).stop_event = s.stop_event := by
  unfold recordError; split <;> rfl

@[simp]
theorem recordError_enable_queuing (s : EngineState) :
    (recordError s).enable_queuing = s.enable_queuing := by
  unfold recordError; split <;> rfl

@[simp]
theorem recordError_monitoring (s : EngineState) :
    (recordError s).enable_performance_monitoring = s.enable_performance_monitoring := by
  unfold recordError; split <;> rfl

@[simp]
theorem recordSuccess_click_count (lat : ℚ) (s : EngineState) :
    (recordSuccess lat s).click_count = s.click_count := by
  unfold recordSuccess; split <;> rfl

@[simp]
theorem recordSuccess_is_running (lat : ℚ) (s : EngineState) :
    (recordSuccess lat s).is_running = s.is_running := by
  unfold recordSuccess; split <;> rfl

@[simp]
theorem recordSuccess_stop_event (lat : ℚ) (s : EngineState) :
    (recordSuccess lat s).stop_event = s.stop_event := by
  unfold recordSuccess; split <;> rfl

@[simp]
theorem recordSuccess_enable_queuing (lat : ℚ) (s : EngineState) :
    (recordSuccess lat s).enable_queuing = s.enable_queuing := by
  unfold recordSuccess; split <;> rfl

@[simp]
theorem recordSuccess_monitoring (lat : ℚ) (s : EngineState) :
    (recordSuccess lat s).enable_performance_monitoring = s.enable_performance_monitoring := by
  unfold recordSuccess; split <;> rfl

theorem perform_click_click_count (env : Env) (t : ClickTarget) (s : EngineState) :
    (perform_click env t s).1.click_count = s.click_count := by
  unfold perform_click
  split
  · rfl
  · split
    · simp
    · split
      · simp
      · cases env.outcome s.attempts <;> simp

theorem perform_click_is_running (env : Env) (t : ClickTarget) (s : EngineState) :
    (perform_click env t s).1.is_running = s.is_running := by
  unfold perform_click
  split
  · rfl
  · split
    · simp
    · split
      · simp
      · cases env.outcome s.attempts <;> simp

theorem perform_click_stop_event (env : Env) (t : ClickTarget) (s : EngineState) :
    (perform_click env t s).1.stop_event = s.stop_event := by
  unfold perform_click
  split
  · rfl
  · split
    · simp
    · split
      · simp
      · cases env.outcome s.attempts <;> simp

theorem perform_click_enable_queuing (env : Env) (t : ClickTarget) (s : EngineState) :
    (perform_click env t s).1.enable_queuing = s.enable_queuing := by
  unfold perform_click
  split
  · rfl
  · split
    · simp
    · split
      · simp
      · cases env.outcome s.attempts <;> simp

theorem perform_click_monitoring (env : Env) (t : ClickTarget) (s : EngineState) :
    (perform_click env t s).1.enable_performance_monitoring
      = s.enable_performance_monitoring := by
  unfold perform_click
  split
  · rfl
  · split
    · simp
    · split
      · simp
      · cases env.outcome s.attempts <;> simp

theorem perform_click_ok (env : Env) (t : ClickTarget) (s : EngineState)
    (ht : validClick env t) (hq : s.enable_queuing = false)
    (hout : env.outcome s.attempts = InjectorOutcome.ok) :
    perform_click env t s
      = (recordSuccess (env.latency s.attempts) { s with attempts := s.attempts + 1 }, none) := by
  unfold perform_click
  rw [if_neg, if_neg, if_neg, hout]
  · rcases ht.2 with h | h | h <;> simp [h]
  · simp [ht.1]
  · simp [hq]

theorem perform_burst_all_ok (env : Env) (t : ClickTarget)
    (hout : ∀ k, env.outcome k = InjectorOutcome.ok) (ht : validClick env t) :
    ∀ (n : ℕ) (s : EngineState), s.is_running = true → s.stop_event = false →
      s.enable_queuing = false →
      ∃ s', perform_burst env t n s = (s', none) ∧
        s'.click_count = s.click_count + n ∧ s'.is_running = true ∧
        s'.stop_event = false ∧ s'.enable_queuing = false := by
  intro n
  induction n with
  | zero =>
    intro s hr hs hq
    exact ⟨s, rfl, by omega, hr, hs, hq⟩
  | succ n ih =>
    intro s hr hs hq
    have hc := perform_click_ok env t s ht hq (hout s.attempts)
    obtain ⟨s', h1, h2, h3, h4, h5⟩ :=
      ih { recordSuccess (env.latency s.attempts) { s with attempts := s.attempts + 1 } with
            click_count :=
              (recordSuccess (env.latency s.attempts) { s with attempts := s.attempts + 1 }).click_count + 1 }
        (by simp [hr]) (by simp [hs]) (by simp [hq])
    refine ⟨s', ?_, ?_, h3, h4, h5⟩
    · simp only [perform_burst]
      rw [if_neg (by simp [hr, hs]), hc]
      exact h1
    · simp at h2
      omega

theorem click_loop_limit_general (env : Env) (t : ClickTarget) (N B : ℕ)
    (hN : 0 < N) (hB : 0 < B)
    (hout : ∀ k, env.outcome k = InjectorOutcome.ok) (ht : validClick env t) :
    ∀ (fuel iter : ℕ) (s : EngineState), s.is_running = true → s.stop_event = false →
      s.enable_queuing = false → N ≤ s.click_count + fuel * B →
      ∃ r, click_loop env t B N 0 (fuel + 1) iter s = some r ∧
        r.reason = StopReason.limit ∧ r.on_complete_called = true ∧
        ((N ≤ s.click_count ∧ r.state.click_count = s.click_count) ∨
         (s.click_count < N ∧ ∃ j, r.state.click_count = s.click_count + B * j ∧
            N ≤ r.state.click_count ∧ r.state.click_count < N + B)) := by
  intro fuel
  induction fuel with
  | zero =>
    intro iter s hr hs hq hfuel
    have hle : N ≤ s.click_count := by omega
    refine ⟨⟨s, StopReason.limit, true⟩, ?_, rfl, rfl, Or.inl ⟨hle, rfl⟩⟩
    simp only [click_loop]
    rw [if_neg (by simp [hr, hs]), if_pos (by simp [should_stop, hN, hle])]
  | succ fuel ih =>
    intro iter s hr hs hq hfuel
    by_cases hle : N ≤ s.click_count
    · refine ⟨⟨s, StopReason.limit, true⟩, ?_, rfl, rfl, Or.inl ⟨hle, rfl⟩⟩
      simp only [click_loop]
      rw [if_neg (by simp [hr, hs]), if_pos (by simp [should_stop, hN, hle])]
    · have hcount : s.click_count < N := by omega
      obtain ⟨s', hb, hbc, hbr, hbs, hbq⟩ := perform_burst_all_ok env t hout ht B s hr hs hq
      have hmul : (fuel + 1) * B = fuel * B + B := Nat.succ_mul fuel B
      obtain ⟨r, hloop, hreason, hcomp, hcase⟩ :=
        ih (iter + 1) s' hbr hbs hbq (by rw [hbc]; omega)
      refine ⟨r, ?_, hreason, hcomp, ?_⟩
      · simp only [click_loop]
        rw [if_neg (by simp [hr, hs]),
          if_neg (by simp [should_stop, hcount, Nat.not_le.mpr hcount]), hb]
        exact hloop
      · rcases hcase with ⟨hge, hcnt⟩ | ⟨hlt, j, hj, hge, hwin⟩
        · refine Or.inr ⟨hcount, 1, ?_, by omega, by omega⟩
          rw [hcnt, hbc]
          omega
        · refine Or.inr ⟨hcount, j + 1, ?_, by omega, by omega⟩
          have hmj : B * (j + 1) = B * j + B := Nat.mul_succ B j
          rw [hbc] at hj
          omega

-- C1 ----------------------------------------------------------------

/-- C1 (amended): with `maxClicks = N > 0`, no time limit, every click
attempt succeeding and queuing off, the scheduling loop stops through the
limit check after performing the least multiple of the burst size that
reaches `N` clicks — exactly `N` clicks whenever the burst size divides `N`
(in particular for burst size 1), but strictly more than `N` otherwise,
because `_should_stop` is evaluated only between bursts. -/
theorem C1_max_clicks_stops_at_burst_multiple (env : Env) (t : ClickTarget)
    (N B fuel : ℕ) (hN : 0 < N) (hB : 0 < B)
    (hout : ∀ k, env.outcome k = InjectorOutcome.ok) (ht : validClick env t)
    (s : EngineState) (hr : s.is_running = true) (hs : s.stop_event = false)
    (hq : s.enable_queuing = false) (h0 : s.click_count = 0)
    (hfuel : N ≤ fuel * B) :
    ∃ r, click_loop env t B N 0 (fuel + 1) 0 s = some r ∧
      r.reason = StopReason.limit ∧ r.on_complete_called = true ∧
      (∃ j, r.state.click_count = B * j) ∧
      N ≤ r.state.click_count ∧ r.state.click_count < N + B ∧
      (B ∣ N → r.state.click_count = N) := by
  obtain ⟨r, hloop, hreason, hcomp, hcase⟩ :=
    click_loop_limit_general env t N B hN hB hout ht fuel 0 s hr hs hq (by omega)
  rcases hcase with ⟨hge, _⟩ | ⟨_, j, hj, hge, hwin⟩
  · omega
  · rw [h0] at hj
    refine ⟨r, hloop, hreason, hcomp, ⟨j, by omega⟩, hge, by omega, ?_⟩
    rintro ⟨m, hm⟩
    have hj' : r.state.click_count = B * j := by omega
    have h1 : B * m ≤ B * j := by omega
    have h2 : B * j < B * (m + 1) := by
      have hexp : B * (m + 1) = B * m + B := by ring
      omega
    have hm1 : m ≤ j := Nat.le_of_mul_le_mul_left h1 hB
    have hm2 : j < m + 1 := Nat.lt_of_mul_lt_mul_left h2
    have hjm : j = m := by omega
    subst hjm
    omega

/-- C1 witness: `N = 3`, burst size 2, all clicks succeeding — the theorem
applies and yields the limit-triggered stop. -/
theorem C1_witness :
    ∃ r, click_loop okEnv leftClick 2 3 0 3 0 freshEngine = some r ∧
      r.reason = StopReason.limit ∧ r.on_complete_called = true ∧
      (∃ j, r.state.click_count = 2 * j) ∧
      3 ≤ r.state.click_count ∧ r.state.click_count < 3 + 2 ∧
      (2 ∣ 3 → r.state.click_count = 3) :=
  C1_max_clicks_stops_at_burst_multiple okEnv leftClick 3 2 2 (by decide) (by decide)
    (fun _ => rfl) (by exact ⟨by decide, Or.inl rfl⟩) freshEngine rfl rfl rfl rfl (by decide)

/-- C1 counterexample: `maxClicks = 1` with burst size 2 and no time limit
performs 2 clicks, not exactly 1, before the limit check stops the loop. -/
theorem C1_counterexample :
    (click_loop okEnv leftClick 2 1 0 5 0 freshEngine).map
        (fun r => (r.reason, r.state.click_count)) = some (StopReason.limit, 2) ∧
      (2 : ℕ) ≠ 1 := by
  constructor
  · decide
  · decide

-- C6 ----------------------------------------------------------------

/-- C6: `start_clicking` called while a run is already active returns
`false` and leaves the whole engine state — counter, start time, flags,
queue and metrics — unchanged. -/
theorem C6_start_while_running_noop (s : EngineState) (now : ℚ)
    (h : s.is_running = true) :
    start_clicking now s = (false, s) := by
  unfold start_clicking
  rw [if_pos h]

/-- C6 witness: a running engine state refuses a second start. -/
theorem C6_witness : start_clicking 7 freshEngine = (false, freshEngine) :=
  C6_start_while_running_noop freshEngine 7 rfl

theorem perform_click_none_error_count (env : Env) (t : ClickTarget)
    (s s' : EngineState) (h : perform_click env t s = (s', none)) :
    s'.metrics.click_error_count = s.metrics.click_error_count := by
  unfold perform_click at h
  split at h
  · cases h; rfl
  · split at h
    · simp at h
    · split at h
      · simp at h
      · cases houtc : env.outcome s.attempts <;> rw [houtc] at h
        · cases h
          simp [recordSuccess]
          split <;> rfl
        · simp at h
        · simp at h

theorem recordError_metrics_fields (s : EngineState) :
    (recordError s).metrics.click_success_count = s.metrics.click_success_count ∧
    (recordError s).metrics.click_timings = s.metrics.click_timings ∧
    (recordError s).metrics.total_click_time = s.metrics.total_click_time ∧
    (recordError s).metrics.min_click_time = s.metrics.min_click_time ∧
    (recordError s).metrics.max_click_time = s.metrics.max_click_time := by
  unfold recordError
  split <;> exact ⟨rfl, rfl, rfl, rfl, rfl⟩

theorem recordError_error_count (s : EngineState)
    (hmon : s.enable_performance_monitoring = true) :
    (recordError s).metrics.click_error_count = s.metrics.click_error_count + 1 := by
  unfold recordError
  rw [if_pos hmon]

theorem recordError_twice_metrics_fields (s : EngineState) :
    (recordError (recordError s)).metrics.click_success_count
      = s.metrics.click_success_count ∧
    (recordError (recordError s)).metrics.click_timings = s.metrics.click_timings ∧
    (recordError (recordError s)).metrics.total_click_time = s.metrics.total_click_time ∧
    (recordError (recordError s)).metrics.min_click_time = s.metrics.min_click_time ∧
    (recordError (recordError s)).metrics.max_click_time = s.metrics.max_click_time := by
  obtain ⟨a1, a2, a3, a4, a5⟩ := recordError_metrics_fields (recordError s)
  obtain ⟨b1, b2, b3, b4, b5⟩ := recordError_metrics_fields s
  exact ⟨a1.trans b1, a2.trans b2, a3.trans b3, a4.trans b4, a5.trans b5⟩

theorem recordError_twice_error_count (s : EngineState)
    (hmon : s.enable_performance_monitoring = true) :
    (recordError (recordError s)).metrics.click_error_count
      = s.metrics.click_error_count + 2 := by
  have h1 := recordError_error_count s hmon
  have h2 := recordError_error_count (recordError s) (by simp [hmon])
  omega

theorem perform_click_error_effects (env : Env) (t : ClickTarget)
    (s s' : EngineState) (e : ClickErr) (h : perform_click env t s = (s', some e)) :
    s'.metrics.click_success_count = s.metrics.click_success_count ∧
    s'.metrics.click_timings = s.metrics.click_timings ∧
    s'.metrics.total_click_time = s.metrics.total_click_time ∧
    s'.metrics.min_click_time = s.metrics.min_click_time ∧
    s'.metrics.max_click_time = s.metrics.max_click_time ∧
    (s.enable_performance_monitoring = true →
      s'.metrics.click_error_count = s.metrics.click_error_count + 1 ∨
      s'.metrics.click_error_count = s.metrics.click_error_count + 2) := by
  unfold perform_click at h
  split at h
  · simp at h
  · split at h
    · cases h
      obtain ⟨f1, f2, f3, f4, f5⟩ := recordError_metrics_fields s
      exact ⟨f1, f2, f3, f4, f5, fun hmon => Or.inl (recordError_error_count s hmon)⟩
    · split at h
      · cases h
        obtain ⟨f1, f2, f3, f4, f5⟩ := recordError_metrics_fields s
        exact ⟨f1, f2, f3, f4, f5, fun hmon => Or.inl (recordError_error_count s hmon)⟩
      · cases houtc : env.outcome s.attempts <;> rw [houtc] at h
        · simp at h
        · cases h
          obtain ⟨f1, f2, f3, f4, f5⟩ :=
            recordError_twice_metrics_fields { s with attempts := s.attempts + 1 }
          exact ⟨f1, f2, f3, f4, f5, fun hmon =>
            Or.inr (recordError_twice_error_count { s with attempts := s.attempts + 1 } hmon)⟩
        · cases h
          obtain ⟨f1, f2, f3, f4, f5⟩ :=
            recordError_twice_metrics_fields { s with attempts := s.attempts + 1 }
          exact ⟨f1, f2, f3, f4, f5, fun hmon =>
            Or.inr (recordError_twice_error_count { s with attempts := s.attempts + 1 } hmon)⟩

theorem perform_burst_err (env : Env) (t : ClickTarget) :
    ∀ (n : ℕ) (s s' : EngineState) (e : ClickErr),
      perform_burst env t n s = (s', some e) →
      s'.click_count < s.click_count + n ∧
      (s.enable_performance_monitoring = true →
        s.metrics.click_error_count < s'.metrics.click_error_count) := by
  intro n
  induction n with
  | zero =>
    intro s s' e h
    simp [perform_burst] at h
  | succ n ih =>
    intro s s' e h
    simp only [perform_burst] at h
    split at h
    · simp at h
    · rcases hclick : perform_click env t s with ⟨s1, r⟩
      rw [hclick] at h
      cases r with
      | none =>
        have hcnt : s1.click_count = s.click_count := by
          have := perform_click_click_count env t s
          rw [hclick] at this
          exact this
        have hmonp : s1.enable_performance_monitoring = s.enable_performance_monitoring := by
          have := perform_click_monitoring env t s
          rw [hclick] at this
          exact this
        have herr : s1.metrics.click_error_count = s.metrics.click_error_count :=
          perform_click_none_error_count env t s s1 hclick
        obtain ⟨ih1, ih2⟩ := ih _ s' e h
        constructor
        · simp at ih1
          omega
        · intro hmon
          have := ih2 (by simp [hmonp, hmon])
          simp at this
          omega
      | some e' =>
        cases h
        obtain ⟨_, _, _, _, _, herr⟩ := perform_click_error_effects env t s s' e hclick
        have hcnt : s'.click_count = s.click_count := by
          have := perform_click_click_count env t s
          rw [hclick] at this
          exact this
        refine ⟨by omega, ?_⟩
        intro hmon
        rcases herr hmon with h1 | h1 <;> omega

-- C2 ----------------------------------------------------------------

/-- C2 (amended): a click attempt that fails inside a burst is recorded in
the error metrics (the error counter strictly increases when monitoring is
on), but it does stop the run: the exception escapes `_perform_burst`, the
remaining clicks of the burst are not performed, and `_click_loop`'s handler
exits the loop (still invoking the completion callback) — fail-fast, not
propagate-and-continue. -/
theorem C2_failed_click_aborts_loop (env : Env) (t : ClickTarget)
    (B N A fuel iter : ℕ) (s s' : EngineState) (e : ClickErr)
    (hrun : s.is_running = true) (hstop : s.stop_event = false)
    (hmon : s.enable_performance_monitoring = true)
    (hss : should_stop env N A iter s = false)
    (hburst : perform_burst env t B s = (s', some e)) :
    click_loop env t B N A (fuel + 1) iter s = some ⟨s', StopReason.exception, true⟩ ∧
    s'.click_count < s.click_count + B ∧
    s.metrics.click_error_count < s'.metrics.click_error_count := by
  obtain ⟨h1, h2⟩ := perform_burst_err env t B s s' e hburst
  refine ⟨?_, h1, h2 hmon⟩
  simp only [click_loop]
  rw [if_neg (by simp [hrun, hstop]), if_neg (by simp [hss]), hburst]

/-- C2 witness: burst of size 3 whose second executed attempt fails at
platform level — the theorem applies: one click counted, loop exited through
the exception path, error recorded. -/
theorem C2_witness :
    click_loop failSecondEnv leftClick 3 0 0 3 0 freshEngine
      = some ⟨(perform_burst failSecondEnv leftClick 3 freshEngine).1,
          StopReason.exception, true⟩ ∧
    (perform_burst failSecondEnv leftClick 3 freshEngine).1.click_count
      < freshEngine.click_count + 3 ∧
    freshEngine.metrics.click_error_count
      < (perform_burst failSecondEnv leftClick 3 freshEngine).1.metrics.click_error_count := by
  have h2 : (perform_burst failSecondEnv leftClick 3 freshEngine).2
      = some ClickErr.clickEngineError := by decide
  have hb : perform_burst failSecondEnv leftClick 3 freshEngine
      = ((perform_burst failSecondEnv leftClick 3 freshEngine).1,
         some ClickErr.clickEngineError) := by
    rw [← h2]
  exact C2_failed_click_aborts_loop failSecondEnv leftClick 3 0 0 2 0 freshEngine
    (perform_burst failSecondEnv leftClick 3 freshEngine).1 ClickErr.clickEngineError
    rfl rfl rfl (by decide) hb

/-- C2 counterexample: in a burst of size 3 whose second click attempt
fails, the remaining click is not performed (1 click counted, not 3) and the
loop stops with the exception exit, although no stop condition was set. -/
theorem C2_counterexample :
    (click_loop failSecondEnv leftClick 3 0 0 5 0 freshEngine).map
        (fun r => (r.reason, r.state.click_count))
      = some (StopReason.exception, 1) ∧ (1 : ℕ) ≠ 3 := by
  constructor
  · decide
  · decide

-- C9 ----------------------------------------------------------------

/-- C9 (amended): with performance monitoring enabled, a successful executed
attempt appends its latency to the bounded history and updates the success
count, running min, max and sum, leaving the error count alone; a failed
attempt records no latency and leaves the success count alone, but the error
count grows by one only for coordinate and unsupported-button errors — for
fail-safe and platform-level injector failures it grows by two, because the
inner pyautogui handler and the outer custom-exception handler each
increment it. -/
theorem C9_metrics_per_attempt (env : Env) (t : ClickTarget) (s : EngineState)
    (hmon : s.enable_performance_monitoring = true) :
    (∀ s', s.enable_queuing = false → perform_click env t s = (s', none) →
        s'.metrics.click_success_count = s.metrics.click_success_count + 1 ∧
        s'.metrics.click_timings
          = pushBounded 1000 s.metrics.click_timings (env.latency s.attempts) ∧
        s'.metrics.total_click_time
          = s.metrics.total_click_time + env.latency s.attempts ∧
        s'.metrics.min_click_time = minOpt s.metrics.min_click_time (env.latency s.attempts) ∧
        s'.metrics.max_click_time = max s.metrics.max_click_time (env.latency s.attempts) ∧
        s'.metrics.click_error_count = s.metrics.click_error_count) ∧
    (∀ s' e, perform_click env t s = (s', some e) →
        s'.metrics.click_success_count = s.metrics.click_success_count ∧
        s'.metrics.click_timings = s.metrics.click_timings ∧
        (s'.metrics.click_error_count = s.metrics.click_error_count + 1 ∨
         s'.metrics.click_error_count = s.metrics.click_error_count + 2)) ∧
    (validClick env t →
      ¬ (s.enable_queuing = true ∧ s.click_queue.length < s.max_queue_size) →
      (env.outcome s.attempts = InjectorOutcome.failSafe ∨
       env.outcome s.attempts = InjectorOutcome.platformError) →
      (perform_click env t s).1.metrics.click_error_count
        = s.metrics.click_error_count + 2) ∧
    (¬ (s.enable_queuing = true ∧ s.click_queue.length < s.max_queue_size) →
      ¬ (0 ≤ t.x ∧ t.x ≤ env.screen_width ∧ 0 ≤ t.y ∧ t.y ≤ env.screen_height) →
      (perform_click env t s).2 = some ClickErr.coordinateError ∧
      (perform_click env t s).1.metrics.click_error_count
        = s.metrics.click_error_count + 1) ∧
    (¬ (s.enable_queuing = true ∧ s.click_queue.length < s.max_queue_size) →
      (0 ≤ t.x ∧ t.x ≤ env.screen_width ∧ 0 ≤ t.y ∧ t.y ≤ env.screen_height) →
      ¬ (t.mouse_button = "left" ∨ t.mouse_button = "right" ∨ t.mouse_button = "middle") →
      (perform_click env t s).2 = some ClickErr.clickEngineError ∧
      (perform_click env t s).1.metrics.click_error_count
        = s.metrics.click_error_count + 1) := by
  refine ⟨?_, ?_, ?_, ?_, ?_⟩
  · intro s' hq h
    unfold perform_click at h
    rw [if_neg (by simp [hq])] at h
    split at h
    · simp at h
    · split at h
      · simp at h
      · cases houtc : env.outcome s.attempts <;> rw [houtc] at h
        · cases h
          refine ⟨?_, ?_, ?_, ?_, ?_, ?_⟩ <;> simp [recordSuccess, hmon]
        · simp at h
        · simp at h
  · intro s' e h
    obtain ⟨h1, h2, _, _, _, h6⟩ := perform_click_error_effects env t s s' e h
    exact ⟨h1, h2, h6 hmon⟩
  · intro ht hq hout
    unfold perform_click
    rw [if_neg hq, if_neg (by simp only [not_not]; exact ht.1),
      if_neg (by simp only [not_not]; exact ht.2)]
    rcases hout with h | h <;> rw [h] <;>
      exact recordError_twice_error_count { s with attempts := s.attempts + 1 } hmon
  · intro hq hnb
    unfold perform_click
    rw [if_neg hq, if_pos hnb]
    exact ⟨rfl, recordError_error_count s hmon⟩
  · intro hq hb hnbtn
    unfold perform_click
    rw [if_neg hq, if_neg (by simp only [not_not]; exact hb), if_pos hnbtn]
    exact ⟨rfl, recordError_error_count s hmon⟩

/-- C9 witness: a successful attempt in the benign environment updates the
success count and leaves the error count alone, and an out-of-bounds attempt
at (5000, 5000) on the 1920x1080 screen raises `CoordinateError` and
increments the error count by exactly one — the success and coordinate
conjuncts of the theorem applied at concrete states. -/
theorem C9_witness :
    (perform_click okEnv leftClick freshEngine).1.metrics.click_success_count
        = freshEngine.metrics.click_success_count + 1 ∧
    (perform_click okEnv leftClick freshEngine).1.metrics.click_error_count
        = freshEngine.metrics.click_error_count ∧
    (perform_click okEnv ⟨5000, 5000, "left", "single"⟩ freshEngine).2
        = some ClickErr.coordinateError ∧
    (perform_click okEnv ⟨5000, 5000, "left", "single"⟩ freshEngine).1.metrics.click_error_count
        = freshEngine.metrics.click_error_count + 1 := by
  have h2 : (perform_click okEnv leftClick freshEngine).2 = none := by decide
  have hb : perform_click okEnv leftClick freshEngine
      = ((perform_click okEnv leftClick freshEngine).1, none) := by
    rw [← h2]
  have h := (C9_metrics_per_attempt okEnv leftClick freshEngine rfl).1
    (perform_click okEnv leftClick freshEngine).1 rfl hb
  have hcoord := (C9_metrics_per_attempt okEnv ⟨5000, 5000, "left", "single"⟩
    freshEngine rfl).2.2.2.1 (by decide) (by decide)
  exact ⟨h.1, h.2.2.2.2.2, hcoord.1, hcoord.2⟩

/-- C9 counterexample: a platform-level injector failure with monitoring on
increments the error counter by two, not by exactly one. -/
theorem C9_counterexample :
    (perform_click platformFailEnv leftClick freshEngine).1.metrics.click_error_count = 2 ∧
    freshEngine.metrics.click_error_count = 0 ∧ (2 : ℕ) ≠ 0 + 1 := by
  refine ⟨?_, rfl, ?_⟩
  · decide
  · decide

-- C10 ---------------------------------------------------------------

/-- C10: in a burst iteration the counter is incremented exactly when the
click attempt returns without raising — a raising attempt leaves
`click_count` unchanged and aborts the burst — and with queuing enabled and
the queue not full the attempt returns successfully at enqueue time, with a
result that does not consult the injector outcome at all. -/
theorem C10_count_increment_on_success (env : Env) (t : ClickTarget) (n : ℕ)
    (s : EngineState) (hrun : s.is_running = true) (hstop : s.stop_event = false) :
    (∀ s', perform_click env t s = (s', none) →
        s'.click_count = s.click_count ∧
        perform_burst env t (n + 1) s
          = perform_burst env t n { s' with click_count := s'.click_count + 1 }) ∧
    (∀ s' e, perform_click env t s = (s', some e) →
        s'.click_count = s.click_count ∧ perform_burst env t (n + 1) s = (s', some e)) ∧
    (s.enable_queuing = true → s.click_queue.length < s.max_queue_size →
        perform_click env t s = ({ s with click_queue := s.click_queue ++ [t] }, none)) := by
  refine ⟨?_, ?_, ?_⟩
  · intro s' h
    have hcnt := perform_click_click_count env t s
    rw [h] at hcnt
    refine ⟨hcnt, ?_⟩
    simp only [perform_burst]
    rw [if_neg (by simp [hrun, hstop]), h]
  · intro s' e h
    have hcnt := perform_click_click_count env t s
    rw [h] at hcnt
    refine ⟨hcnt, ?_⟩
    simp only [perform_burst]
    rw [if_neg (by simp [hrun, hstop]), h]
  · intro hq1 hq2
    unfold perform_click
    rw [if_pos ⟨by simp [hq1], hq2⟩]

/-- C10 witness: with queuing on and the queue empty, the attempt succeeds
by enqueueing the click, regardless of the injector. -/
theorem C10_witness :
    perform_click platformFailEnv leftClick queueEngine
      = ({ queueEngine with click_queue := queueEngine.click_queue ++ [leftClick] }, none) :=
  (C10_count_increment_on_success platformFailEnv leftClick 0 queueEngine rfl rfl).2.2
    rfl (by decide)

-- C3 ----------------------------------------------------------------

/-- C3: with jitter 0 the sampled interval is exactly the base interval;
with jitter > 0 it is `base + randint(-jitter, jitter)` and so lies in
`[base - jitter, base + jitter]`; the slept duration equals
`max(actualInterval, 1) / 1000` seconds and is never zero or negative. -/
theorem C3_wait_with_variation (interval : ℚ) (variation r : ℤ)
    (hr1 : -variation ≤ r) (hr2 : r ≤ variation) :
    (variation = 0 → actual_interval interval variation r = interval) ∧
    (0 < variation → actual_interval interval variation r = interval + (r : ℚ)) ∧
    (0 < variation →
      interval - (variation : ℚ) ≤ actual_interval interval variation r ∧
      actual_interval interval variation r ≤ interval + (variation : ℚ)) ∧
    wait_time interval variation r = max (actual_interval interval variation r) 1 / 1000 ∧
    1 / 1000 ≤ wait_time interval variation r ∧
    0 < wait_time interval variation r := by
  have hca : (-variation : ℚ) ≤ (r : ℚ) := by exact_mod_cast hr1
  have hcb : (r : ℚ) ≤ (variation : ℚ) := by exact_mod_cast hr2
  refine ⟨?_, ?_, ?_, ?_, ?_, ?_⟩
  · intro h
    unfold actual_interval
    rw [if_neg (by omega)]
  · intro h
    unfold actual_interval
    rw [if_pos h]
  · intro h
    unfold actual_interval
    rw [if_pos h]
    constructor <;> linarith
  · unfold wait_time
    rcases le_total (actual_interval interval variation r) 1 with h | h
    · rw [max_eq_right h, max_eq_right ?_]
      exact (div_le_div_iff_of_pos_right (by norm_num : (0 : ℚ) < 1000)).mpr h
    · rw [max_eq_left h, max_eq_left ?_]
      exact (div_le_div_iff_of_pos_right (by norm_num : (0 : ℚ) < 1000)).mpr h
  · exact le_max_right _ _
  · exact lt_of_lt_of_le (by norm_num) (le_max_right _ _)

/-- C3 witness: base interval 1000 ms, jitter 50, draw -50 — the sampled
interval is 950 and the slept duration is the floored conversion. -/
theorem C3_witness :
    ((50 : ℤ) = 0 → actual_interval 1000 50 (-50) = 1000) ∧
    ((0 : ℤ) < 50 → actual_interval 1000 50 (-50) = 1000 + ((-50 : ℤ) : ℚ)) ∧
    ((0 : ℤ) < 50 →
      1000 - ((50 : ℤ) : ℚ) ≤ actual_interval 1000 50 (-50) ∧
      actual_interval 1000 50 (-50) ≤ 1000 + ((50 : ℤ) : ℚ)) ∧
    wait_time 1000 50 (-50) = max (actual_interval 1000 50 (-50)) 1 / 1000 ∧
    1 / 1000 ≤ wait_time 1000 50 (-50) ∧
    0 < wait_time 1000 50 (-50) :=
  C3_wait_with_variation 1000 50 (-50) (by decide) (by decide)

-- C7 ----------------------------------------------------------------

/-- C7 (amended): both sleeps of the loop are single uninterruptible
`time.sleep` calls containing no flag check, so a stop requested as a sleep
begins is observed only at the next flag check, a full sleep duration later —
the halt latency equals the whole sleep, not a short polling granularity. -/
theorem C7_sleep_latency_is_full_sleep (B : ℕ) (p w : ℚ) (tail : List LoopAction) :
    delayToNextCheck (LoopAction.sleep w :: iterationActions B p w) = some w ∧
    delayToNextCheck (LoopAction.sleep p :: (burstActions p (B + 1) ++ tail)) = some p := by
  constructor
  · simp [iterationActions, delayToNextCheck]
  · cases B with
    | zero => simp [burstActions, delayToNextCheck]
    | succ n => simp [burstActions, delayToNextCheck]

/-- C7 counterexample: with a 5000 ms base interval and no jitter, a stop
requested as the inter-burst sleep begins is observed 5 whole seconds later
— the full remaining sleep — far above a sub-100 ms polling granularity. -/
theorem C7_counterexample :
    delayToNextCheck
        (LoopAction.sleep (wait_time 5000 0 0) :: iterationActions 1 1 (wait_time 5000 0 0))
      = some 5 ∧ ¬ ((5 : ℚ) ≤ 1 / 10) := by
  have hw : wait_time 5000 0 0 = 5 := by
    unfold wait_time actual_interval
    rw [if_neg (by decide), max_eq_left (by norm_num)]
    norm_num
  rw [hw]
  constructor
  · simp [iterationActions, delayToNextCheck]
  · norm_num

-- sanitization range lemmas ------------------------------------------

theorem load_replacePreset_same (m : List (String × ℤ × ℤ)) (k : String) (v : ℤ × ℤ)
    (hk : hasPreset m k = true) :
    load_preset (replacePreset m k v) k = some v := by
  induction m with
  | nil => simp [hasPreset] at hk
  | cons kv rest ih =>
    by_cases h : kv.1 = k
    · simp [replacePreset, load_preset, h]
    · simp only [hasPreset, h, decide_False, Bool.false_or] at hk
      simp only [replacePreset, load_preset, if_neg h]
      exact ih hk

theorem load_replacePreset_other (m : List (String × ℤ × ℤ)) (k other : String)
    (v : ℤ × ℤ) (hne : other ≠ k) :
    load_preset (replacePreset m k v) other = load_preset m other := by
  induction m with
  | nil => rfl
  | cons kv rest ih =>
    by_cases h : kv.1 = k
    · subst h
      simp only [replacePreset, if_pos rfl, load_preset]
      rw [if_neg (fun hh => hne hh.symm), if_neg (fun hh => hne hh.symm)]
      exact ih
    · simp only [replacePreset, if_neg h, load_preset]
      by_cases h2 : kv.1 = other
      · rw [if_pos h2, if_pos h2]
      · rw [if_neg h2, if_neg h2]
        exact ih

theorem load_append_same (m : List (String × ℤ × ℤ)) (k : String) (v : ℤ × ℤ)
    (hk : hasPreset m k = false) :
    load_preset (m ++ [(k, v)]) k = some v := by
  induction m with
  | nil => simp [load_preset]
  | cons kv rest ih =>
    simp only [hasPreset, Bool.or_eq_false_iff, decide_eq_false_iff_not] at hk
    simp only [List.cons_append, load_preset, if_neg hk.1]
    exact ih hk.2

theorem load_append_other (m : List (String × ℤ × ℤ)) (k other : String) (v : ℤ × ℤ)
    (hne : other ≠ k) :
    load_preset (m ++ [(k, v)]) other = load_preset m other := by
  induction m with
  | nil =>
    simp only [List.nil_append, load_preset]
    rw [if_neg (fun hh => hne hh.symm)]
  | cons kv rest ih =>
    simp only [List.cons_append, load_preset]
    by_cases h : kv.1 = other
    · rw [if_pos h, if_pos h]
    · rw [if_neg h, if_neg h]
      exact ih

theorem load_save_same (m : List (String × ℤ × ℤ)) (name : String) (x y : ℤ) :
    load_preset (save_preset m name x y) name = some (x, y) := by
  unfold save_preset
  cases hk : hasPreset m name with
  | true => rw [if_pos rfl]; exact load_replacePreset_same m name (x, y) hk
  | false => rw [if_neg (by simp [hk])]; exact load_append_same m name (x, y) hk

theorem load_save_other (m : List (String × ℤ × ℤ)) (name other : String) (x y : ℤ)
    (hne : other ≠ name) :
    load_preset (save_preset m name x y) other = load_preset m other := by
  unfold save_preset
  split
  · exact load_replacePreset_other m name other (x, y) hne
  · exact load_append_other m name other (x, y) hne

theorem load_not_found (m : List (String × ℤ × ℤ)) (name : String)
    (hn : name ∉ get_preset_names m) :
    load_preset m name = none := by
  induction m with
  | nil => rfl
  | cons kv rest ih =>
    simp only [get_preset_names, List.map_cons, List.mem_cons, not_or] at hn
    have h1 : ¬ kv.1 = name := fun hh => hn.1 hh.symm
    simp only [load_preset, if_neg h1]
    exact ih hn.2

theorem names_replacePreset (m : List (String × ℤ × ℤ)) (k : String) (v : ℤ × ℤ) :
    get_preset_names (replacePreset m k v) = get_preset_names m := by
  induction m with
  | nil => rfl
  | cons kv rest ih =>
    simp only [replacePreset, get_preset_names, List.map_cons]
    simp only [get_preset_names] at ih
    by_cases h : kv.1 = k
    · rw [if_pos h, ih, h]
    · rw [if_neg h, ih]

theorem hasPreset_false_not_mem (m : List (String × ℤ × ℤ)) (k : String)
    (hk : hasPreset m k = false) :
    k ∉ get_preset_names m := by
  induction m with
  | nil => simp [get_preset_names]
  | cons kv rest ih =>
    simp only [hasPreset, Bool.or_eq_false_iff, decide_eq_false_iff_not] at hk
    simp only [get_preset_names, List.map_cons, List.mem_cons, not_or]
    exact ⟨fun hh => hk.1 hh.symm, by simpa [get_preset_names] using ih hk.2⟩

theorem names_save_nodup (m : List (String × ℤ × ℤ)) (name : String) (x y : ℤ)
    (hnd : (get_preset_names m).Nodup) :
    (get_preset_names (save_preset m name x y)).Nodup := by
  unfold save_preset
  cases hk : hasPreset m name with
  | true =>
    rw [if_pos rfl, names_replacePreset m name (x, y)]
    exact hnd
  | false =>
    rw [if_neg (by simp [hk])]
    have hmem := hasPreset_false_not_mem m name hk
    simp only [get_preset_names, List.map_append, List.map_cons, List.map_nil]
    rw [List.nodup_append]
    refine ⟨hnd, List.nodup_singleton name, ?_⟩
    intro a ha hb
    simp only [List.mem_singleton] at hb
    subst hb
    exact hmem ha

/-- C8: saving a preset and loading it back by the same name returns exactly
the saved pair; loading under a different name is unaffected; a name never
saved loads as `none`; saving twice under one name keeps the last write; and
saving preserves the uniqueness of names in the store. -/
theorem C8_preset_roundtrip (m : List (String × ℤ × ℤ)) (name other : String)
    (x y x2 y2 : ℤ) :
    load_preset (save_preset m name x y) name = some (x, y) ∧
    (other ≠ name → load_preset (save_preset m name x y) other = load_preset m other) ∧
    (name ∉ get_preset_names m → load_preset m name = none) ∧
    load_preset (save_preset (save_preset m name x y) name x2 y2) name = some (x2, y2) ∧
    ((get_preset_names m).Nodup → (get_preset_names (save_preset m name x y)).Nodup) :=
  ⟨load_save_same m name x y,
   fun hne => load_save_other m name other x y hne,
   fun hn => load_not_found m name hn,
   load_save_same (save_preset m name x y) name x2 y2,
   fun hnd => names_save_nodup m name x y hnd⟩

/-- C8 witness: save "Home" at (640, 480) into the empty store, load it
back, check an unrelated name, overwrite it with (1, 2), and keep the name
set duplicate-free. -/
theorem C8_witness :
    load_preset (save_preset [] "Home" 640 480) "Home" = some (640, 480) ∧
    load_preset (save_preset [] "Home" 640 480) "Work" = load_preset [] "Work" ∧
    load_preset [] "Home" = none ∧
    load_preset (save_preset (save_preset [] "Home" 640 480) "Home" 1 2) "Home"
      = some (1, 2) ∧
    (get_preset_names (save_preset [] "Home" 640 480)).Nodup := by
  have hc := C8_preset_roundtrip [] "Home" "Work" 640 480 1 2
  exact ⟨hc.1, hc.2.1 (by decide), hc.2.2.1 (by simp [get_preset_names]),
    hc.2.2.2.1, hc.2.2.2.2 (by simp [get_preset_names])⟩

end AutoClicker
